import Mathlib

/-!
Verification of the VisionLab simulation/vision kernel.

Shallow embedding of the per-frame kernel of the scene editor: geometry
primitives, bounding boxes, AABB collision, path interpolation, playback
progress, attachment propagation (gripper/camera systems) and the
simulation-state store slice.  JavaScript numbers are modelled by exact
rationals, JavaScript `%` by truncated remainder, and JavaScript array
indexing (where a negative or out-of-range index yields `undefined`) by
`Option`.
-/

namespace VisionLab

/-- A 3-component vector, from `types/index.ts` (`Vector3`). -/
structure Vec3 where
  x : ℚ
  y : ℚ
  z : ℚ
deriving DecidableEq

/-- Componentwise vector addition (used to state `position + offset`). -/
def vecAdd (a b : Vec3) : Vec3 :=
  ⟨a.x + b.x, a.y + b.y, a.z + b.z⟩

/-- Truncation toward zero, as JavaScript coerces the quotient in `a % b`. -/
def jsTrunc (q : ℚ) : ℤ :=
  if 0 ≤ q then ⌊q⌋ else ⌈q⌉

/-- JavaScript remainder `a % b` (sign follows the dividend). -/
def jsMod (a b : ℚ) : ℚ :=
  a - b * (jsTrunc (a / b) : ℚ)

/-- JavaScript array indexing: a negative or out-of-range index yields
`undefined`, modelled as `none`. -/
def jsIndex {α : Type} (xs : List α) (i : ℤ) : Option α :=
  if 0 ≤ i then xs[i.toNat]? else none

/-- The IEEE-754 double `Math.PI`, as the exact rational it denotes. -/
def mathPI : ℚ := 884279719003555 / 281474976710656

/-- Linear interpolation of vectors, from `transformUtils.ts` (`lerpVector3`). -/
def lerpVector3 (s e : Vec3) (t : ℚ) : Vec3 :=
  ⟨s.x + (e.x - s.x) * t, s.y + (e.y - s.y) * t, s.z + (e.z - s.z) * t⟩

/-- Angle interpolation with wrapping at plus/minus pi, from
`transformUtils.ts` (`lerpAngle`). -/
def lerpAngle (s e t : ℚ) : ℚ :=
  let diff0 := e - s
  let diff1 := if mathPI < diff0 then diff0 - 2 * mathPI else diff0
  let diff2 := if diff1 < -mathPI then diff1 + 2 * mathPI else diff1
  s + diff2 * t

/-- Componentwise rotation interpolation, from `transformUtils.ts`
(`lerpRotation`). -/
def lerpRotation (s e : Vec3) (t : ℚ) : Vec3 :=
  ⟨lerpAngle s.x e.x t, lerpAngle s.y e.y t, lerpAngle s.z e.z t⟩

/-- The per-type `properties` bag of a scene object, flattened to one record
of the fields the kernel reads (`types/index.ts`). -/
structure ObjectProps where
  fov : Option ℚ := none
  resolution : Option (ℚ × ℚ) := none
  parentRobotId : Option String := none
  endEffectorOffset : Option Vec3 := none
  pathId : Option String := none
  gripperId : Option String := none
deriving DecidableEq

/-- A scene object (`types/index.ts`, `SceneObject`); `type` is kept as a
string because the runtime switch in `boundingBoxUtils.ts` has a default
branch for unknown types. -/
structure SceneObject where
  id : String
  type : String
  position : Vec3
  rotation : Vec3
  scale : Vec3
  cameraType : Option String := none
  properties : ObjectProps := {}
deriving DecidableEq

/-- An axis-aligned bounding box (`boundingBoxUtils.ts`). -/
structure BoundingBox where
  min : Vec3
  max : Vec3
deriving DecidableEq

/-- Bounding box of a scene object, from `boundingBoxUtils.ts`
(`getObjectBoundingBox`). -/
def getObjectBoundingBox (object : SceneObject) : BoundingBox :=
  let scale := object.scale
  let center := object.position
  let size : Vec3 :=
    match object.type with
    | "camera" => ⟨0.5 * scale.x, 0.5 * scale.y, 0.5 * scale.z⟩
    | "bin" => ⟨1 * scale.x, 1 * scale.y, 1 * scale.z⟩
    | "obstacle" => ⟨1 * scale.x, 1 * scale.y, 1 * scale.z⟩
    | "robot" => ⟨0.8 * scale.x, 1.5 * scale.y, 0.8 * scale.z⟩
    | "gripper" => ⟨0.3 * scale.x, 0.3 * scale.y, 0.6 * scale.z⟩
    | _ => ⟨1 * scale.x, 1 * scale.y, 1 * scale.z⟩
  ⟨⟨center.x - size.x / 2, center.y - size.y / 2, center.z - size.z / 2⟩,
   ⟨center.x + size.x / 2, center.y + size.y / 2, center.z + size.z / 2⟩⟩

/-- The eight corners of a bounding box, from `boundingBoxUtils.ts`
(`getBoundingBoxCorners`). -/
def getBoundingBoxCorners (bbox : BoundingBox) : List Vec3 :=
  [⟨bbox.min.x, bbox.min.y, bbox.min.z⟩,
   ⟨bbox.max.x, bbox.min.y, bbox.min.z⟩,
   ⟨bbox.min.x, bbox.max.y, bbox.min.z⟩,
   ⟨bbox.max.x, bbox.max.y, bbox.min.z⟩,
   ⟨bbox.min.x, bbox.min.y, bbox.max.z⟩,
   ⟨bbox.max.x, bbox.min.y, bbox.max.z⟩,
   ⟨bbox.min.x, bbox.max.y, bbox.max.z⟩,
   ⟨bbox.max.x, bbox.max.y, bbox.max.z⟩]

/-- Closed-interval AABB intersection test, from `collisionUtils.ts`
(`checkAABBCollision`). -/
def checkAABBCollision (box1 box2 : BoundingBox) : Bool :=
  decide (box1.min.x ≤ box2.max.x) && decide (box2.min.x ≤ box1.max.x) &&
  decide (box1.min.y ≤ box2.max.y) && decide (box2.min.y ≤ box1.max.y) &&
  decide (box1.min.z ≤ box2.max.z) && decide (box2.min.z ≤ box1.max.z)

/-- Object-level collision test, from `collisionUtils.ts`
(`checkObjectCollision`). -/
def checkObjectCollision (obj1 obj2 : SceneObject) : Bool :=
  checkAABBCollision (getObjectBoundingBox obj1) (getObjectBoundingBox obj2)

/-- All objects colliding with a given object, from `collisionUtils.ts`
(`findCollidingObjects`). -/
def findCollidingObjects (object : SceneObject) (allObjects : List SceneObject) :
    List SceneObject :=
  allObjects.filter (fun other => other.id != object.id && checkObjectCollision object other)

/-- Filter objects by type, from `objectQueryUtils.ts` (`filterObjectsByType`). -/
def filterObjectsByType (objects : List SceneObject) (ty : String) : List SceneObject :=
  objects.filter (fun obj => obj.type == ty)

/-- Robots of the scene, from `objectQueryUtils.ts` (`filterRobots`). -/
def filterRobots (objects : List SceneObject) : List SceneObject :=
  filterObjectsByType objects "robot"

/-- Grippers of the scene, from `objectQueryUtils.ts` (`filterGrippers`). -/
def filterGrippers (objects : List SceneObject) : List SceneObject :=
  filterObjectsByType objects "gripper"

/-- Cameras of the scene, from `objectQueryUtils.ts` (`filterCameras`). -/
def filterCameras (objects : List SceneObject) : List SceneObject :=
  filterObjectsByType objects "camera"

/-- Ids inserted into the frame's colliding-id set by the per-frame pass of
`CollisionDetector.tsx`: for each robot, for each of its colliders, the
robot's id and the collider's id are added to a JS `Set` (membership in this
list models membership in that set). -/
def collisionFrameIds (objects : List SceneObject) : List String :=
  (filterRobots objects).flatMap (fun robot =>
    (findCollidingObjects robot objects).flatMap (fun colliding => [robot.id, colliding.id]))

/-- The claim's wording of the colliding-id set: the union over every robot
`r` of `{r.id}` together with the ids of the objects whose AABB intersects
`r`'s (spec-side definition, for comparison with `collisionFrameIds`). -/
def claimedCollidingIds (objects : List SceneObject) (i : String) : Prop :=
  ∃ r ∈ objects, r.type = "robot" ∧
    (i = r.id ∨ ∃ o ∈ objects, o.id ≠ r.id ∧ checkObjectCollision r o = true ∧ i = o.id)

instance (objects : List SceneObject) (i : String) :
    Decidable (claimedCollidingIds objects i) := by
  unfold claimedCollidingIds
  infer_instance

/-- A path waypoint (`types/index.ts`, `PathWaypoint`). -/
structure Waypoint where
  id : String
  position : Vec3
  rotation : Vec3
deriving DecidableEq

/-- A movement path (`types/index.ts`, `Path`). -/
structure Path where
  id : String
  waypoints : List Waypoint
  loop : Bool
  speed : ℚ
deriving DecidableEq

/-- Normalization of progress in `interpolatePath` (`pathUtils.ts`): looping
paths take JS `progress % 1`, others clamp to the unit interval. -/
def normalizeProgress (loop : Bool) (progress : ℚ) : ℚ :=
  if loop then jsMod progress 1 else min 1 (max 0 progress)

/-- The `segmentCount` local of `interpolatePath`. -/
def segmentCountOf (wps : List Waypoint) (loop : Bool) : ℤ :=
  (wps.length : ℤ) - (if loop then 0 else 1)

/-- The `segmentLength` local of `interpolatePath`. -/
def segmentLengthOf (wps : List Waypoint) (loop : Bool) : ℚ :=
  1 / ((segmentCountOf wps loop : ℤ) : ℚ)

/-- The `segmentIndex` local of `interpolatePath`. -/
def segmentIndexOf (wps : List Waypoint) (loop : Bool) (progress : ℚ) : ℤ :=
  ⌊normalizeProgress loop progress / segmentLengthOf wps loop⌋

/-- The `segmentProgress` local of `interpolatePath`. -/
def segmentProgressOf (wps : List Waypoint) (loop : Bool) (progress : ℚ) : ℚ :=
  if 0 < segmentCountOf wps loop then
    jsMod (normalizeProgress loop progress) (segmentLengthOf wps loop) /
      segmentLengthOf wps loop
  else 0

/-- The `startIndex` local of `interpolatePath` (JS `%` on numbers that are
integers here is truncated remainder). -/
def startIndexOf (wps : List Waypoint) (loop : Bool) (progress : ℚ) : ℤ :=
  Int.tmod (segmentIndexOf wps loop progress) (wps.length : ℤ)

/-- The `endIndex` local of `interpolatePath`. -/
def endIndexOf (wps : List Waypoint) (loop : Bool) (progress : ℚ) : ℤ :=
  Int.tmod (startIndexOf wps loop progress + 1) (wps.length : ℤ)

/-- The multi-waypoint branch of `interpolatePath` (`pathUtils.ts`): segment
selection and interpolation for a list of at least two waypoints.  A waypoint
lookup that lands outside the array yields JS `undefined`, and reading
`.position` from it throws: that is the `.error` fallthrough. -/
def interpolateMulti (wps : List Waypoint) (loop : Bool) (progress : ℚ) :
    Except String (Vec3 × Vec3) :=
  match jsIndex wps (startIndexOf wps loop progress),
      jsIndex wps (endIndexOf wps loop progress) with
  | some s, some e =>
      .ok (lerpVector3 s.position e.position (segmentProgressOf wps loop progress),
           lerpRotation s.rotation e.rotation (segmentProgressOf wps loop progress))
  | _, _ => .error "TypeError: cannot read properties of undefined"

/-- Path interpolation, from `pathUtils.ts` (`interpolatePath`): throws on an
empty waypoint list, returns the single pose for one waypoint, and otherwise
interpolates along the selected segment. -/
def interpolatePath (path : Path) (progress : ℚ) : Except String (Vec3 × Vec3) :=
  match path.waypoints with
  | [] => .error "Path must have at least one waypoint"
  | [w] => .ok (w.position, w.rotation)
  | w0 :: w1 :: rest => interpolateMulti (w0 :: w1 :: rest) path.loop progress

/-- Playback progress advance, from `pathProgressUtils.ts`
(`calculateNextProgress`); the second component counts the `onComplete`
invocations performed by the call. -/
def calculateNextProgress (currentProgress progressDelta : ℚ) (path : Path) :
    ℚ × ℕ :=
  let newProgress := currentProgress + progressDelta
  if 1 ≤ newProgress then
    if path.loop then (jsMod newProgress 1, 0)
    else (1, 1)
  else (newProgress, 0)

/-- End-effector position of a robot, from `endEffectorUtils.ts`
(`calculateEndEffectorPosition`): robot position plus the end-effector
offset, defaulting to `(0, 0.75, 0)`. -/
def calculateEndEffectorPosition (robot : SceneObject) : Vec3 :=
  let offset := robot.properties.endEffectorOffset.getD ⟨0, 0.75, 0⟩
  ⟨robot.position.x + offset.x, robot.position.y + offset.y, robot.position.z + offset.z⟩

/-- The store's `updateObject` (`sceneStore.ts`) restricted to the fields the
frame systems write: merge a new position and rotation into every object with
the given id. -/
def updateObjectPosRot (objects : List SceneObject) (id : String) (pos rot : Vec3) :
    List SceneObject :=
  objects.map (fun obj =>
    if obj.id == id then { obj with position := pos, rotation := rot } else obj)

/-- First object with a given id (the store's lookup discipline). -/
def findById (objects : List SceneObject) (id : String) : Option SceneObject :=
  objects.find? (fun obj => obj.id == id)

/-- One frame of a system component: fold over the iterated items, each step
either calling `updateObject` with a position/rotation computed from the
frame's snapshot, or skipping the item.  `target` is the per-item update
computation; it reads only the snapshot captured at the start of the frame,
exactly as the `useFrame` closures do. -/
def runSystem (target : SceneObject → Option (Vec3 × Vec3))
    (items : List SceneObject) (objects : List SceneObject) : List SceneObject :=
  items.foldl (fun acc item =>
    match target item with
    | some pr => updateObjectPosRot acc item.id pr.1 pr.2
    | none => acc) objects

/-- Update computed for one gripper by `GripperSystem.tsx`: skip when
`parentRobotId` is JS-falsy or no robot carries that id, otherwise move the
gripper to the parent robot's end effector with the robot's rotation. -/
def gripperTarget (objects : List SceneObject) (gripper : SceneObject) :
    Option (Vec3 × Vec3) :=
  match gripper.properties.parentRobotId with
  | some rid =>
      if rid == "" then none
      else
        match (filterRobots objects).find? (fun r => r.id == rid) with
        | some robot => some (calculateEndEffectorPosition robot, robot.rotation)
        | none => none
  | none => none

/-- One frame of `GripperSystem.tsx`. -/
def gripperFrame (objects : List SceneObject) : List SceneObject :=
  runSystem (gripperTarget objects) (filterGrippers objects) objects

/-- Update computed for one camera by `CameraSystem.tsx`: only `eye-in-hand`
cameras with a JS-truthy `parentRobotId` resolving to a robot are moved; the
end-effector position is the attached gripper's snapshot position when
`gripperId` resolves, the robot position plus offset with default `(0,0,0)`
when `gripperId` is set but dangling, and the robot position plus offset with
default `(0,0.75,0)` when `gripperId` is falsy. -/
def cameraTarget (objects : List SceneObject) (camera : SceneObject) :
    Option (Vec3 × Vec3) :=
  if camera.cameraType == some "eye-in-hand" then
    match camera.properties.parentRobotId with
    | some rid =>
        if rid == "" then none
        else
          match objects.find? (fun obj => obj.type == "robot" && obj.id == rid) with
          | some robot =>
              let endEffectorPosition : Vec3 :=
                match robot.properties.gripperId with
                | some gid =>
                    if gid == "" then
                      vecAdd robot.position (robot.properties.endEffectorOffset.getD ⟨0, 0.75, 0⟩)
                    else
                      match objects.find? (fun obj => obj.type == "gripper" && obj.id == gid) with
                      | some gripper => gripper.position
                      | none =>
                          vecAdd robot.position (robot.properties.endEffectorOffset.getD ⟨0, 0, 0⟩)
                | none =>
                    vecAdd robot.position (robot.properties.endEffectorOffset.getD ⟨0, 0.75, 0⟩)
              some (endEffectorPosition, robot.rotation)
          | none => none
    | none => none
  else none

/-- One frame of `CameraSystem.tsx`. -/
def cameraFrame (objects : List SceneObject) : List SceneObject :=
  runSystem (cameraTarget objects) (filterCameras objects) objects

/-- Modelled from the spec: the point-in-frustum test of `visionUtils.ts`
delegates to `three.js` (`PerspectiveCamera` and `Frustum`, external to the
repository); per section 4.3 of the spec the point is classified against the
six half-spaces of the perspective frustum with vertical fov, aspect
`resolution.width / resolution.height` (default 1920x1080), near `0.1` and
far `10`, at the camera pose.  This embedding is specialized to a camera with
identity rotation; `focal` stands for the focal scalar `1 / tan(fov * pi / 360)`
of the projection matrix, left as a parameter because it is irrational at the
default fov of 60 degrees. -/
def isPointInFrustumZeroRot (focal : ℚ) (camera : SceneObject) (point : Vec3) : Bool :=
  let res := camera.properties.resolution.getD (1920, 1080)
  let aspect := res.1 / res.2
  let dx := point.x - camera.position.x
  let dy := point.y - camera.position.y
  let dz := point.z - camera.position.z
  let w := -dz
  decide ((1 : ℚ) / 10 ≤ w) && decide (w ≤ 10) &&
  decide (-w ≤ focal / aspect * dx) && decide (focal / aspect * dx ≤ w) &&
  decide (-w ≤ focal * dy) && decide (focal * dy ≤ w)

/-- Object visibility, from `visionUtils.ts` (`isObjectVisible`): at least one
corner of the object's bounding box lies in the camera frustum. -/
def isObjectVisibleZeroRot (focal : ℚ) (object camera : SceneObject) : Bool :=
  let bbox := getObjectBoundingBox object
  let corners := getBoundingBoxCorners bbox
  corners.any (fun corner => isPointInFrustumZeroRot focal camera corner)

/-- Simulation lifecycle states (`types/index.ts`, `SimulationState`). -/
inductive SimState where
  | idle
  | playing
  | paused
deriving DecidableEq

/-- Simulation store data (`types/index.ts`, `SimulationData`). -/
structure SimulationData where
  state : SimState
  progress : ℚ
  currentPathId : Option String
  speed : ℚ
deriving DecidableEq

/-- The actions of the simulation slice (`simulationSlice.ts`). -/
inductive SimAction where
  | start (pathId : String)
  | pause
  | stop
  | setProgress (p : ℚ)
  | setSpeed (s : ℚ)

/-- State transition of each simulation action, from `simulationSlice.ts`
(`createSimulationSlice`, identical to the inline actions of
`sceneStore.ts`). -/
def applySimAction (sim : SimulationData) : SimAction → SimulationData
  | .start pathId => ⟨.playing, 0, some pathId, 1⟩
  | .pause => { sim with state := .paused }
  | .stop => ⟨.idle, 0, none, 1⟩
  | .setProgress p => { sim with progress := max 0 (min 1 p) }
  | .setSpeed s => { sim with speed := max 0.1 (min 5 s) }

/-- The store's initial simulation state (`sceneStore.ts`). -/
def initialSimulation : SimulationData := ⟨.idle, 0, none, 1⟩

/-- A simulation state is reachable when some action sequence produces it
from the store's initial state. -/
def reachableSim (sim : SimulationData) : Prop :=
  ∃ acts : List SimAction, sim = acts.foldl applySimAction initialSimulation

/-! Concrete scenes and paths used by counterexamples and witnesses. -/

/-- A lone robot at the origin. -/
def exRobot : SceneObject :=
  { id := "r1", type := "robot", position := ⟨0, 0, 0⟩, rotation := ⟨0, 0, 0⟩,
    scale := ⟨1, 1, 1⟩ }

/-- A two-waypoint looping path. -/
def exLoopPath : Path :=
  ⟨"lp", [⟨"w0", ⟨0, 0, 0⟩, ⟨0, 0, 0⟩⟩, ⟨"w1", ⟨10, 0, 0⟩, ⟨0, 0, 0⟩⟩], true, 1⟩

/-- A two-waypoint non-looping path. -/
def exLinePath : Path :=
  ⟨"p1", [⟨"w0", ⟨0, 0, 0⟩, ⟨0, 0, 0⟩⟩, ⟨"w1", ⟨10, 0, 0⟩, ⟨0, 0, 0⟩⟩], false, 1⟩

/-- An empty path. -/
def exEmptyPath : Path := ⟨"p0", [], false, 1⟩

/-! Statement-side definitions and concrete scenes used by the
claims, counterexamples and witnesses. -/

/-- The claim's per-type half-extent table (spec-side, for comparison with
`getObjectBoundingBox`). -/
def claimedHalfExtent (ty : String) : Vec3 :=
  match ty with
  | "camera" => ⟨0.25, 0.25, 0.25⟩
  | "bin" => ⟨0.5, 0.5, 0.5⟩
  | "obstacle" => ⟨0.5, 0.5, 0.5⟩
  | "robot" => ⟨0.4, 0.75, 0.4⟩
  | "gripper" => ⟨0.15, 0.15, 0.3⟩
  | _ => ⟨0.5, 0.5, 0.5⟩

/-- An object of the given type placed one unit behind a camera at `camPos`
with identity rotation (the camera looks along negative z, so behind is
`camPos - forward = camPos + (0,0,1)`). -/
def objectBehind (ty : String) (camPos : Vec3) : SceneObject :=
  { id := "obj", type := ty, position := ⟨camPos.x, camPos.y, camPos.z + 1⟩,
    rotation := ⟨0, 0, 0⟩, scale := ⟨1, 1, 1⟩ }

/-- A camera at `camPos` with identity rotation and default fov/resolution. -/
def defaultCameraAt (camPos : Vec3) : SceneObject :=
  { id := "cam", type := "camera", position := camPos, rotation := ⟨0, 0, 0⟩,
    scale := ⟨1, 1, 1⟩, cameraType := some "eye-to-hand" }

/-- The effect of one system item on one object: objects carrying the item's
id receive the item's computed position/rotation, every other object is left
alone. -/
def applyTargetStep (target : SceneObject → Option (Vec3 × Vec3))
    (item o : SceneObject) : SceneObject :=
  match target item with
  | some pr => if o.id == item.id then { o with position := pr.1, rotation := pr.2 } else o
  | none => o

/-- The end-effector position one `CameraSystem` pass uses for an eye-in-hand
camera attached to `robot` (statement-side restatement of the three branches
of `cameraTarget`): the attached gripper's snapshot position when `gripperId`
resolves, robot position plus offset with default `(0,0,0)` when `gripperId`
is set but dangling, robot position plus offset with default `(0,0.75,0)`
when `gripperId` is unset or empty. -/
def cameraEndEffector (objects : List SceneObject) (robot : SceneObject) : Vec3 :=
  match robot.properties.gripperId with
  | some gid =>
      if gid == "" then
        vecAdd robot.position (robot.properties.endEffectorOffset.getD ⟨0, 0.75, 0⟩)
      else
        match objects.find? (fun obj => obj.type == "gripper" && obj.id == gid) with
        | some gripper => gripper.position
        | none => vecAdd robot.position (robot.properties.endEffectorOffset.getD ⟨0, 0, 0⟩)
  | none => vecAdd robot.position (robot.properties.endEffectorOffset.getD ⟨0, 0.75, 0⟩)

/-- A robot with an attached gripper id and no explicit end-effector offset. -/
def exC4Robot : SceneObject :=
  { id := "r1", type := "robot", position := ⟨0, 0, 0⟩, rotation := ⟨0, 0, 0⟩,
    scale := ⟨1, 1, 1⟩, properties := { gripperId := some "g1" } }

/-- The attached gripper, sitting away from the robot's end effector. -/
def exC4Grip : SceneObject :=
  { id := "g1", type := "gripper", position := ⟨5, 5, 5⟩, rotation := ⟨0, 0, 0⟩,
    scale := ⟨1, 1, 1⟩, properties := { parentRobotId := some "r1" } }

/-- An eye-in-hand camera attached to the robot. -/
def exC4Cam : SceneObject :=
  { id := "c1", type := "camera", position := ⟨9, 9, 9⟩, rotation := ⟨0, 0, 0⟩,
    scale := ⟨1, 1, 1⟩, cameraType := some "eye-in-hand",
    properties := { parentRobotId := some "r1" } }

/-- The C4 counterexample scene. -/
def exC4Scene : List SceneObject := [exC4Robot, exC4Grip, exC4Cam]

/-- A robot at the origin with end-effector offset `(0, 1, 0)`. -/
def exC5Robot : SceneObject :=
  { id := "r1", type := "robot", position := ⟨0, 0, 0⟩, rotation := ⟨0, 0, 0⟩,
    scale := ⟨1, 1, 1⟩,
    properties := { endEffectorOffset := some ⟨0, 1, 0⟩, gripperId := some "g1" } }

/-- Its attached gripper, initially away from the end effector. -/
def exC5Grip : SceneObject :=
  { id := "g1", type := "gripper", position := ⟨2, 2, 2⟩, rotation := ⟨0, 0, 0⟩,
    scale := ⟨1, 1, 1⟩, properties := { parentRobotId := some "r1" } }

/-- The C5 witness scene. -/
def exC5Scene : List SceneObject := [exC5Robot, exC5Grip]

/-! Helper lemmas about the JavaScript arithmetic helpers. -/

theorem jsTrunc_zero : jsTrunc 0 = 0 := by
  unfold jsTrunc
  simp

theorem jsMod_zero_left (b : ℚ) : jsMod 0 b = 0 := by
  unfold jsMod
  simp [jsTrunc_zero]

theorem jsMod_one_of_nonneg (a : ℚ) (ha : 0 ≤ a) : jsMod a 1 = Int.fract a := by
  unfold jsMod jsTrunc
  rw [div_one, if_pos ha, Int.fract]
  ring

theorem lerpVector3_zero (s e : Vec3) : lerpVector3 s e 0 = s := by
  cases s
  simp [lerpVector3]

theorem lerpAngle_zero (s e : ℚ) : lerpAngle s e 0 = s := by
  simp [lerpAngle]

theorem lerpRotation_zero (s e : Vec3) : lerpRotation s e 0 = s := by
  cases s
  simp [lerpRotation, lerpAngle_zero]

/-! C6 — bounding boxes. -/

/-- C6: for every scene object, `getObjectBoundingBox` returns the box
centered at the object's position whose per-axis half-extent is the per-type
constant (camera 0.25, bin 0.5, obstacle 0.5, robot (0.4, 0.75, 0.4), gripper
(0.15, 0.15, 0.3), 0.5 for unknown types) times the object's scale on that
axis; the function is total, so it never fails. -/
theorem getObjectBoundingBox_spec (obj : SceneObject) :
    getObjectBoundingBox obj =
      { min := ⟨obj.position.x - (claimedHalfExtent obj.type).x * obj.scale.x,
                obj.position.y - (claimedHalfExtent obj.type).y * obj.scale.y,
                obj.position.z - (claimedHalfExtent obj.type).z * obj.scale.z⟩,
        max := ⟨obj.position.x + (claimedHalfExtent obj.type).x * obj.scale.x,
                obj.position.y + (claimedHalfExtent obj.type).y * obj.scale.y,
                obj.position.z + (claimedHalfExtent obj.type).z * obj.scale.z⟩ } := by
  unfold getObjectBoundingBox claimedHalfExtent
  split <;> simp_all <;> refine ⟨by ring, by ring, by ring⟩

/-! C1 — the per-frame colliding-id set. -/

/-- C1 (amended): the frame's colliding-id set contains an id exactly when
some robot has at least one collider and the id is that robot's id or one of
its colliders' ids; a robot with no colliders contributes nothing, and an
object touching no robot is never reported. -/
theorem collisionFrameIds_mem_iff (objects : List SceneObject) (i : String) :
    i ∈ collisionFrameIds objects ↔
      ∃ r ∈ objects, r.type = "robot" ∧ ∃ o ∈ objects,
        o.id ≠ r.id ∧ checkObjectCollision r o = true ∧ (i = r.id ∨ i = o.id) := by
  unfold collisionFrameIds filterRobots filterObjectsByType findCollidingObjects
  simp only [List.mem_flatMap, List.mem_filter, Bool.and_eq_true, beq_iff_eq,
    bne_iff_ne, List.mem_cons, List.mem_singleton, List.not_mem_nil, or_false]
  constructor
  · rintro ⟨r, ⟨hr, hty⟩, o, ⟨ho, hne, hcol⟩, hi⟩
    exact ⟨r, hr, hty, o, ho, hne, hcol, hi⟩
  · rintro ⟨r, hr, hty, o, ho, hne, hcol, hi⟩
    exact ⟨r, ⟨hr, hty⟩, o, ⟨ho, hne, hcol⟩, hi⟩

/-- C1 counterexample: in a scene holding a single robot, the claim's union
contains the robot's id, but the code's reported set is empty — the two
disagree, refuting the claimed set equality. -/
theorem collisionFrameIds_claim_counterexample :
    claimedCollidingIds [exRobot] "r1" ∧ "r1" ∉ collisionFrameIds [exRobot] := by
  decide

/-! C3 — playback progress advance. -/

/-- C3: with `next = current + delta` and `delta ≥ 0`, `calculateNextProgress`
returns exactly 1 with one `onComplete` call when `next ≥ 1` on a non-looping
path, returns `next mod 1` with no call when `next ≥ 1` on a looping path,
and returns `next` with no call when `next < 1`; concretely at `current=0.9`,
`delta=0.2` it yields `(1, one call)` without loop and `(0.1, no call)` with
loop. -/
theorem calculateNextProgress_spec (path : Path) (current delta : ℚ)
    (hdelta : 0 ≤ delta) :
    (1 ≤ current + delta → path.loop = false →
        calculateNextProgress current delta path = (1, 1)) ∧
    (1 ≤ current + delta → path.loop = true →
        calculateNextProgress current delta path = (jsMod (current + delta) 1, 0)) ∧
    (current + delta < 1 →
        calculateNextProgress current delta path = (current + delta, 0)) ∧
    (path.loop = false → calculateNextProgress (9/10) (2/10) path = (1, 1)) ∧
    (path.loop = true → calculateNextProgress (9/10) (2/10) path = (1/10, 0)) := by
  refine ⟨?_, ?_, ?_, ?_, ?_⟩
  · intro h1 hl
    simp [calculateNextProgress, h1, hl]
  · intro h1 hl
    simp [calculateNextProgress, h1, hl]
  · intro h1
    simp [calculateNextProgress, not_le.mpr h1]
  · intro hl
    norm_num [calculateNextProgress, hl]
  · intro hl
    have hm : jsMod ((11:ℚ)/10) 1 = 1/10 := by
      unfold jsMod jsTrunc
      norm_num
    norm_num [calculateNextProgress, hl, hm]

/-- Witness for C3: the non-looping concrete completion case. -/
theorem calculateNextProgress_spec_witness :
    calculateNextProgress (9/10) (2/10) exLinePath = (1, 1) :=
  (calculateNextProgress_spec exLinePath 0 0 le_rfl).2.2.2.1 rfl

/-! C9 and C10 — the simulation slice. -/

theorem applySimAction_progress_bounds (sim : SimulationData) (act : SimAction)
    (h0 : 0 ≤ sim.progress) (h1 : sim.progress ≤ 1) :
    0 ≤ (applySimAction sim act).progress ∧ (applySimAction sim act).progress ≤ 1 := by
  cases act <;> simp [applySimAction, *]

theorem foldl_applySimAction_bounds (acts : List SimAction) (sim : SimulationData)
    (h0 : 0 ≤ sim.progress) (h1 : sim.progress ≤ 1) :
    0 ≤ (acts.foldl applySimAction sim).progress ∧
      (acts.foldl applySimAction sim).progress ≤ 1 := by
  induction acts generalizing sim with
  | nil => exact ⟨h0, h1⟩
  | cons act acts ih =>
      have h := applySimAction_progress_bounds sim act h0 h1
      exact ih (applySimAction sim act) h.1 h.2

/-- C9: every reachable simulation state has progress in [0,1]; the
`setProgress` action clamps any input into [0,1], `start` and `stop` set
progress to 0, `pause` and `setSpeed` leave it unchanged, and `stop`
additionally resets the state to idle. -/
theorem simulation_progress_invariant (sim : SimulationData) (h : reachableSim sim) :
    (0 ≤ sim.progress ∧ sim.progress ≤ 1) ∧
    (∀ s p, 0 ≤ (applySimAction s (.setProgress p)).progress ∧
        (applySimAction s (.setProgress p)).progress ≤ 1) ∧
    (∀ s pid, (applySimAction s (.start pid)).progress = 0) ∧
    (∀ s, (applySimAction s .stop).progress = 0 ∧
        (applySimAction s .stop).state = .idle) ∧
    (∀ s, (applySimAction s .pause).progress = s.progress) ∧
    (∀ s x, (applySimAction s (.setSpeed x)).progress = s.progress) := by
  refine ⟨?_, ?_, ?_, ?_, ?_, ?_⟩
  · obtain ⟨acts, rfl⟩ := h
    exact foldl_applySimAction_bounds acts initialSimulation (by norm_num [initialSimulation])
      (by norm_num [initialSimulation])
  · intro s p
    simp [applySimAction]
  · intro s pid
    rfl
  · intro s
    exact ⟨rfl, rfl⟩
  · intro s
    rfl
  · intro s x
    rfl

/-- Witness for C9: the initial store state is reachable and in bounds. -/
theorem simulation_progress_invariant_witness :
    0 ≤ initialSimulation.progress ∧ initialSimulation.progress ≤ 1 :=
  (simulation_progress_invariant initialSimulation ⟨[], rfl⟩).1

/-! C2 and C7 — path interpolation. -/

theorem jsIndex_isSome_of_lt {α : Type} (xs : List α) (i : ℤ) (h0 : 0 ≤ i)
    (hlt : i < (xs.length : ℤ)) : ∃ a, jsIndex xs i = some a := by
  unfold jsIndex
  rw [if_pos h0]
  have hn : i.toNat < xs.length := by omega
  exact ⟨xs[i.toNat], List.getElem?_eq_getElem hn⟩

theorem normalizeProgress_bounds (loop : Bool) (progress : ℚ)
    (hok : loop = false ∨ 0 ≤ progress) :
    0 ≤ normalizeProgress loop progress ∧ normalizeProgress loop progress ≤ 1 ∧
      (loop = true → normalizeProgress loop progress < 1) := by
  cases loop with
  | false =>
      refine ⟨le_min (by norm_num) (le_max_left 0 progress), min_le_left _ _, by simp⟩
  | true =>
      rcases hok with h | h
      · exact absurd h (by simp)
      · unfold normalizeProgress
        rw [if_pos rfl, jsMod_one_of_nonneg _ h]
        exact ⟨Int.fract_nonneg _, le_of_lt (Int.fract_lt_one _),
          fun _ => Int.fract_lt_one _⟩

theorem segmentCountOf_bounds (wps : List Waypoint) (loop : Bool)
    (h2 : 2 ≤ wps.length) :
    1 ≤ segmentCountOf wps loop ∧ segmentCountOf wps loop ≤ (wps.length : ℤ) ∧
      (loop = false → segmentCountOf wps loop < (wps.length : ℤ)) := by
  unfold segmentCountOf
  cases loop <;> simp <;> omega

theorem segmentIndexOf_bounds (wps : List Waypoint) (loop : Bool) (progress : ℚ)
    (h2 : 2 ≤ wps.length) (hok : loop = false ∨ 0 ≤ progress) :
    0 ≤ segmentIndexOf wps loop progress ∧
      segmentIndexOf wps loop progress < (wps.length : ℤ) := by
  obtain ⟨hnp0, hnp1, hnps⟩ := normalizeProgress_bounds loop progress hok
  obtain ⟨hc1, hcn, hclt⟩ := segmentCountOf_bounds wps loop h2
  have hc0 : (0:ℚ) < ((segmentCountOf wps loop : ℤ) : ℚ) := by exact_mod_cast hc1
  unfold segmentIndexOf segmentLengthOf
  rw [one_div, div_inv_eq_mul]
  constructor
  · exact Int.floor_nonneg.mpr (mul_nonneg hnp0 (le_of_lt hc0))
  · rw [Int.floor_lt]
    cases loop with
    | false =>
        have h1 : normalizeProgress false progress * ((segmentCountOf wps false : ℤ) : ℚ) ≤
            ((segmentCountOf wps false : ℤ) : ℚ) :=
          mul_le_of_le_one_left (le_of_lt hc0) hnp1
        have h2' : ((segmentCountOf wps false : ℤ) : ℚ) < ((wps.length : ℤ) : ℚ) := by
          exact_mod_cast hclt rfl
        calc normalizeProgress false progress * ((segmentCountOf wps false : ℤ) : ℚ) ≤
            ((segmentCountOf wps false : ℤ) : ℚ) := h1
          _ < ((wps.length : ℕ) : ℚ) := by exact_mod_cast h2'
    | true =>
        have h1 : normalizeProgress true progress *
            ((segmentCountOf wps true : ℤ) : ℚ) <
            1 * ((segmentCountOf wps true : ℤ) : ℚ) :=
          mul_lt_mul_of_pos_right (hnps rfl) hc0
        rw [one_mul] at h1
        calc normalizeProgress true progress * ((segmentCountOf wps true : ℤ) : ℚ) <
            ((segmentCountOf wps true : ℤ) : ℚ) := h1
          _ ≤ ((wps.length : ℕ) : ℚ) := by exact_mod_cast hcn

theorem startIndexOf_eq (wps : List Waypoint) (loop : Bool) (progress : ℚ)
    (h2 : 2 ≤ wps.length) (hok : loop = false ∨ 0 ≤ progress) :
    startIndexOf wps loop progress = segmentIndexOf wps loop progress := by
  obtain ⟨h0, hlt⟩ := segmentIndexOf_bounds wps loop progress h2 hok
  exact Int.tmod_eq_of_lt h0 hlt

theorem endIndexOf_bounds (wps : List Waypoint) (loop : Bool) (progress : ℚ)
    (h2 : 2 ≤ wps.length) (hok : loop = false ∨ 0 ≤ progress) :
    0 ≤ endIndexOf wps loop progress ∧
      endIndexOf wps loop progress < (wps.length : ℤ) := by
  obtain ⟨h0, hlt⟩ := segmentIndexOf_bounds wps loop progress h2 hok
  unfold endIndexOf
  rw [startIndexOf_eq wps loop progress h2 hok]
  by_cases hn : segmentIndexOf wps loop progress + 1 = (wps.length : ℤ)
  · rw [hn, Int.tmod_self]
    omega
  · rw [Int.tmod_eq_of_lt (by omega) (by omega)]
    omega

theorem interpolateMulti_isOk (wps : List Waypoint) (loop : Bool) (progress : ℚ)
    (h2 : 2 ≤ wps.length) (hok : loop = false ∨ 0 ≤ progress) :
    (interpolateMulti wps loop progress).isOk = true := by
  obtain ⟨hs0, hslt⟩ := segmentIndexOf_bounds wps loop progress h2 hok
  have hst := startIndexOf_eq wps loop progress h2 hok
  obtain ⟨he0, helt⟩ := endIndexOf_bounds wps loop progress h2 hok
  obtain ⟨s, hs⟩ := jsIndex_isSome_of_lt wps (startIndexOf wps loop progress)
    (hst ▸ hs0) (hst ▸ hslt)
  obtain ⟨e, he⟩ := jsIndex_isSome_of_lt wps (endIndexOf wps loop progress) he0 helt
  unfold interpolateMulti
  rw [hs, he]
  rfl

theorem segment_data_zero (w0 w1 : Waypoint) (rest : List Waypoint) :
    startIndexOf (w0 :: w1 :: rest) false 0 = 0 ∧
    endIndexOf (w0 :: w1 :: rest) false 0 = 1 ∧
    segmentProgressOf (w0 :: w1 :: rest) false 0 = 0 := by
  have hc : segmentCountOf (w0 :: w1 :: rest) false = (rest.length : ℤ) + 1 := by
    unfold segmentCountOf
    rw [if_neg (by simp)]
    simp only [List.length_cons]
    push_cast
    ring
  have hnp : normalizeProgress false 0 = 0 := by
    unfold normalizeProgress
    rw [if_neg (by simp)]
    norm_num
  have hsi : segmentIndexOf (w0 :: w1 :: rest) false 0 = 0 := by
    unfold segmentIndexOf
    rw [hnp, zero_div, Int.floor_zero]
  have hst : startIndexOf (w0 :: w1 :: rest) false 0 = 0 := by
    unfold startIndexOf
    rw [hsi, Int.zero_tmod]
  refine ⟨hst, ?_, ?_⟩
  · unfold endIndexOf
    rw [hst, show (0:ℤ) + 1 = 1 by decide]
    exact Int.tmod_eq_of_lt (by decide)
      (by simp only [List.length_cons]; push_cast; omega)
  · unfold segmentProgressOf
    rw [if_pos (by rw [hc]; omega), hnp, jsMod_zero_left, zero_div]

theorem interpolateMulti_zero (w0 w1 : Waypoint) (rest : List Waypoint) :
    interpolateMulti (w0 :: w1 :: rest) false 0 = .ok (w0.position, w0.rotation) := by
  obtain ⟨hst, hed, hsp⟩ := segment_data_zero w0 w1 rest
  unfold interpolateMulti
  rw [hst, hed, hsp]
  simp [jsIndex, lerpVector3_zero, lerpRotation_zero]

theorem segment_data_one (w0 w1 : Waypoint) (rest : List Waypoint) :
    startIndexOf (w0 :: w1 :: rest) false 1 = (rest.length : ℤ) + 1 ∧
    endIndexOf (w0 :: w1 :: rest) false 1 = 0 ∧
    segmentProgressOf (w0 :: w1 :: rest) false 1 = 0 := by
  have hlen : (((w0 :: w1 :: rest).length : ℕ) : ℤ) = (rest.length : ℤ) + 2 := by
    simp only [List.length_cons]
    push_cast
    ring
  have hc : segmentCountOf (w0 :: w1 :: rest) false = (rest.length : ℤ) + 1 := by
    unfold segmentCountOf
    rw [if_neg (by simp)]
    simp only [List.length_cons]
    push_cast
    ring
  have hcQ : ((segmentCountOf (w0 :: w1 :: rest) false : ℤ) : ℚ) =
      ((rest.length : ℕ) : ℚ) + 1 := by
    rw [hc]
    push_cast
    ring
  have hnp : normalizeProgress false 1 = 1 := by
    unfold normalizeProgress
    rw [if_neg (by simp)]
    norm_num
  have hsl : segmentLengthOf (w0 :: w1 :: rest) false = 1 / (((rest.length : ℕ) : ℚ) + 1) := by
    unfold segmentLengthOf
    rw [hcQ]
  have hkpos : (0:ℚ) < ((rest.length : ℕ) : ℚ) + 1 := by positivity
  have hcastk : (((rest.length : ℕ) : ℚ) + 1) = (((rest.length : ℤ) + 1 : ℤ) : ℚ) := by
    push_cast
    ring
  have hjsm : jsMod 1 (segmentLengthOf (w0 :: w1 :: rest) false) = 0 := by
    rw [hsl]
    unfold jsMod jsTrunc
    rw [one_div_one_div, if_pos (by positivity), hcastk, Int.floor_intCast, ← hcastk]
    field_simp
  have hsi : segmentIndexOf (w0 :: w1 :: rest) false 1 = (rest.length : ℤ) + 1 := by
    unfold segmentIndexOf
    rw [hnp, hsl, one_div_one_div, hcastk, Int.floor_intCast]
  have hst : startIndexOf (w0 :: w1 :: rest) false 1 = (rest.length : ℤ) + 1 := by
    unfold startIndexOf
    rw [hsi, Int.tmod_eq_of_lt (by omega) (by rw [hlen]; omega)]
  refine ⟨hst, ?_, ?_⟩
  · unfold endIndexOf
    rw [hst, hlen]
    rw [show (rest.length : ℤ) + 1 + 1 = (rest.length : ℤ) + 2 by ring]
    exact Int.tmod_self
  · unfold segmentProgressOf
    rw [if_pos (by rw [hc]; omega), hnp, hjsm, zero_div]

theorem interpolateMulti_one (w0 w1 : Waypoint) (rest : List Waypoint) (wl : Waypoint)
    (hwl : (w0 :: w1 :: rest).getLast? = some wl) :
    interpolateMulti (w0 :: w1 :: rest) false 1 = .ok (wl.position, wl.rotation) := by
  obtain ⟨hst, hed, hsp⟩ := segment_data_one w0 w1 rest
  unfold interpolateMulti
  rw [hst, hed, hsp]
  have hjs : jsIndex (w0 :: w1 :: rest) ((rest.length : ℤ) + 1) = some wl := by
    unfold jsIndex
    rw [if_pos (by omega)]
    have ht : ((rest.length : ℤ) + 1).toNat = (w0 :: w1 :: rest).length - 1 := by
      simp only [List.length_cons]
      omega
    rw [ht, ← List.getLast?_eq_getElem?, hwl]
  rw [hjs]
  simp [jsIndex, lerpVector3_zero, lerpRotation_zero]

/-- C2: for every path with at least two waypoints and `loop = false`,
`interpolatePath` at progress 0 returns exactly the first waypoint's position
and rotation, and at progress 1 exactly the last waypoint's. -/
theorem interpolatePath_endpoints (path : Path) (h2 : 2 ≤ path.waypoints.length)
    (hl : path.loop = false) :
    ∃ w0 wl, path.waypoints.head? = some w0 ∧ path.waypoints.getLast? = some wl ∧
      interpolatePath path 0 = .ok (w0.position, w0.rotation) ∧
      interpolatePath path 1 = .ok (wl.position, wl.rotation) := by
  rcases hwps : path.waypoints with _ | ⟨a, tail⟩
  · rw [hwps] at h2
    simp at h2
  · rcases tail with _ | ⟨b, rest⟩
    · rw [hwps] at h2
      simp at h2
    · have hne : (a :: b :: rest : List Waypoint) ≠ [] := by simp
      refine ⟨a, (a :: b :: rest).getLast hne, rfl, List.getLast?_eq_getLast _ hne, ?_, ?_⟩
      · simp only [interpolatePath, hwps, hl]
        exact interpolateMulti_zero a b rest
      · simp only [interpolatePath, hwps, hl]
        exact interpolateMulti_one a b rest _ (List.getLast?_eq_getLast _ hne)

/-- Witness for C2 on a concrete two-waypoint line path. -/
theorem interpolatePath_endpoints_witness :
    ∃ w0 wl, exLinePath.waypoints.head? = some w0 ∧
      exLinePath.waypoints.getLast? = some wl ∧
      interpolatePath exLinePath 0 = .ok (w0.position, w0.rotation) ∧
      interpolatePath exLinePath 1 = .ok (wl.position, wl.rotation) :=
  interpolatePath_endpoints exLinePath (by decide) rfl

/-- C7 (amended): `interpolatePath` errors on an empty waypoint list for every
progress; with at least one waypoint it returns a pose without error for
every progress when the path does not loop or has exactly one waypoint, and
for every non-negative progress when it loops.  For a looping multi-waypoint
path and negative progress it may error — at progress -1/4 the array is read
at index -1 and the call throws (see the counterexample) — but not at every
negative non-integer progress: at -9/10 the truncated remainder wraps the
start index back to 0 and a pose is returned (last conjunct). -/
theorem interpolatePath_error_spec :
    (∀ (path : Path) (progress : ℚ), path.waypoints = [] →
        (interpolatePath path progress).isOk = false) ∧
    (∀ (path : Path) (progress : ℚ), path.waypoints ≠ [] → path.loop = false →
        (interpolatePath path progress).isOk = true) ∧
    (∀ (path : Path) (progress : ℚ), path.waypoints ≠ [] → 0 ≤ progress →
        (interpolatePath path progress).isOk = true) ∧
    (∀ (path : Path) (w : Waypoint) (progress : ℚ), path.waypoints = [w] →
        (interpolatePath path progress).isOk = true) ∧
    ((interpolatePath exLoopPath (-(9/10) : ℚ)).isOk = true) := by
  have hmulti : ∀ (path : Path) (progress : ℚ),
      (path.loop = false ∨ 0 ≤ progress) → path.waypoints ≠ [] →
      (interpolatePath path progress).isOk = true := by
    intro path progress hok hne
    rcases hwps : path.waypoints with _ | ⟨a, _ | ⟨b, rest⟩⟩
    · exact absurd hwps hne
    · simp [interpolatePath, hwps, Except.isOk, Except.toBool]
    · simp only [interpolatePath, hwps]
      exact interpolateMulti_isOk (a :: b :: rest) path.loop progress (by simp) hok
  refine ⟨?_, ?_, ?_, ?_, ?_⟩
  · intro path progress h
    simp [interpolatePath, h, Except.isOk, Except.toBool]
  · intro path progress hne hl
    exact hmulti path progress (Or.inl hl) hne
  · intro path progress hne hp
    exact hmulti path progress (Or.inr hp) hne
  · intro path w progress h
    simp [interpolatePath, h, Except.isOk, Except.toBool]
  · have hnp : normalizeProgress true (-(9/10) : ℚ) = -(9/10) := by
      unfold normalizeProgress jsMod jsTrunc
      norm_num
    have hst : startIndexOf exLoopPath.waypoints true (-(9/10)) = 0 := by
      unfold startIndexOf segmentIndexOf segmentLengthOf segmentCountOf
      rw [hnp]
      norm_num [exLoopPath]
    have hed : endIndexOf exLoopPath.waypoints true (-(9/10)) = 1 := by
      unfold endIndexOf
      rw [hst]
      decide
    simp only [interpolatePath, exLoopPath]
    unfold interpolateMulti
    rw [show (startIndexOf [⟨"w0", ⟨0, 0, 0⟩, ⟨0, 0, 0⟩⟩,
        ⟨"w1", ⟨10, 0, 0⟩, ⟨0, 0, 0⟩⟩] true (-(9/10) : ℚ)) = 0 from hst,
      show (endIndexOf [⟨"w0", ⟨0, 0, 0⟩, ⟨0, 0, 0⟩⟩,
        ⟨"w1", ⟨10, 0, 0⟩, ⟨0, 0, 0⟩⟩] true (-(9/10) : ℚ)) = 1 from hed]
    simp [jsIndex, Except.isOk, Except.toBool]

/-- Witness for C7: the empty path errors, a non-empty path succeeds. -/
theorem interpolatePath_error_spec_witness :
    (interpolatePath exEmptyPath 0).isOk = false ∧
    (interpolatePath exLinePath 5).isOk = true :=
  ⟨interpolatePath_error_spec.1 exEmptyPath 0 rfl,
   interpolatePath_error_spec.2.2.1 exLinePath 5 (by decide) (by norm_num)⟩

/-- C7 counterexample: a looping two-waypoint path at progress -1/4 makes the
interpolator read the array at index -1 and fail, although the waypoint list
is non-empty — refuting "errors exactly when the waypoint list is empty". -/
theorem interpolatePath_claim_counterexample :
    exLoopPath.waypoints ≠ [] ∧
    (interpolatePath exLoopPath (-(1/4) : ℚ)).isOk = false := by
  constructor
  · simp [exLoopPath]
  · have hnp : normalizeProgress true (-(1/4) : ℚ) = -(1/4) := by
      unfold normalizeProgress jsMod jsTrunc
      norm_num
    have hst : startIndexOf exLoopPath.waypoints true (-(1/4)) = -1 := by
      unfold startIndexOf segmentIndexOf segmentLengthOf segmentCountOf
      rw [hnp]
      norm_num [exLoopPath]
      decide
    simp only [interpolatePath, exLoopPath]
    unfold interpolateMulti
    rw [show (startIndexOf [⟨"w0", ⟨0, 0, 0⟩, ⟨0, 0, 0⟩⟩,
        ⟨"w1", ⟨10, 0, 0⟩, ⟨0, 0, 0⟩⟩] true (-(1/4) : ℚ)) = -1 from hst]
    simp [jsIndex, Except.isOk, Except.toBool]

/-! C8 — visibility of an object behind the camera. -/

theorem isPointInFrustumZeroRot_behind (focal : ℚ) (camera : SceneObject)
    (point : Vec3) (h : -(1:ℚ)/10 < point.z - camera.position.z) :
    isPointInFrustumZeroRot focal camera point = false := by
  unfold isPointInFrustumZeroRot
  have hw : decide ((1:ℚ) / 10 ≤ -(point.z - camera.position.z)) = false :=
    decide_eq_false (by linarith)
  simp only [hw, Bool.false_and]

theorem objectBehind_bbox_z (ty : String) (camPos : Vec3) :
    camPos.z + 1/2 ≤ (getObjectBoundingBox (objectBehind ty camPos)).min.z ∧
    camPos.z + 1/2 ≤ (getObjectBoundingBox (objectBehind ty camPos)).max.z := by
  unfold getObjectBoundingBox objectBehind
  split <;> exact ⟨by linarith, by linarith⟩

/-- C8: an object of any type placed one unit directly behind a camera with
identity rotation and default fov/resolution is reported not visible: no
corner of its bounding box passes the frustum's near-plane test, for every
positive or negative focal scalar. -/
theorem isObjectVisible_behind_false (focal : ℚ) (camPos : Vec3) (ty : String) :
    isObjectVisibleZeroRot focal (objectBehind ty camPos) (defaultCameraAt camPos) = false := by
  obtain ⟨hmin, hmax⟩ := objectBehind_bbox_z ty camPos
  unfold isObjectVisibleZeroRot
  rw [List.any_eq_false]
  intro corner hc
  rw [Bool.not_eq_true]
  apply isPointInFrustumZeroRot_behind
  have hcam : (defaultCameraAt camPos).position.z = camPos.z := rfl
  rw [hcam]
  simp only [getBoundingBoxCorners, List.mem_cons, List.not_mem_nil, or_false] at hc
  rcases hc with h | h | h | h | h | h | h | h <;> subst h <;> simp <;> linarith

/-! C4 and C5 — the attachment propagator (gripper and camera systems). -/

theorem find?_map_of_pres {α : Type} (f : α → α) (p : α → Bool)
    (h : ∀ a, p (f a) = p a) (l : List α) :
    (l.map f).find? p = (l.find? p).map f := by
  induction l with
  | nil => rfl
  | cons a l ih =>
      simp only [List.map_cons, List.find?_cons, h]
      cases hp : p a <;> simp [hp, ih]

theorem findById_updateObjectPosRot (objects : List SceneObject) (id q : String)
    (pos rot : Vec3) :
    findById (updateObjectPosRot objects id pos rot) q =
      (findById objects q).map (fun o =>
        if o.id == id then { o with position := pos, rotation := rot } else o) := by
  unfold findById updateObjectPosRot
  apply find?_map_of_pres
  intro a
  by_cases ha : a.id == id <;> simp [ha]

theorem runSystem_cons (target : SceneObject → Option (Vec3 × Vec3))
    (i : SceneObject) (is objects : List SceneObject) :
    runSystem target (i :: is) objects =
      runSystem target is
        (match target i with
         | some pr => updateObjectPosRot objects i.id pr.1 pr.2
         | none => objects) := rfl

theorem findById_runSystem (target : SceneObject → Option (Vec3 × Vec3))
    (items objects : List SceneObject) (q : String) :
    findById (runSystem target items objects) q =
      (findById objects q).map
        (fun o => items.foldl (fun o item => applyTargetStep target item o) o) := by
  induction items generalizing objects with
  | nil =>
      simp [runSystem]
  | cons i is ih =>
      rw [runSystem_cons]
      cases h : target i with
      | none =>
          have hstep : ∀ o, applyTargetStep target i o = o := by
            intro o
            simp [applyTargetStep, h]
          simp only [h]
          rw [ih objects]
          simp [List.foldl_cons, hstep]
      | some pr =>
          have hstep : ∀ o, applyTargetStep target i o =
              if o.id == i.id then { o with position := pr.1, rotation := pr.2 } else o := by
            intro o
            simp [applyTargetStep, h]
          simp only [h]
          rw [ih (updateObjectPosRot objects i.id pr.1 pr.2),
            findById_updateObjectPosRot, Option.map_map]
          simp only [List.foldl_cons, hstep]
          rfl

theorem foldl_applyTargetStep_skip (target : SceneObject → Option (Vec3 × Vec3))
    (items : List SceneObject) (o : SceneObject)
    (h : ∀ item ∈ items, item.id ≠ o.id) :
    items.foldl (fun o item => applyTargetStep target item o) o = o := by
  induction items with
  | nil => rfl
  | cons i is ih =>
      have hi : o.id ≠ i.id := fun he => h i (List.mem_cons_self i is) he.symm
      have hstep : applyTargetStep target i o = o := by
        unfold applyTargetStep
        cases target i <;> simp [hi]
      rw [List.foldl_cons, hstep]
      exact ih (fun item hm => h item (List.mem_cons_of_mem i hm))

theorem foldl_applyTargetStep_hit (target : SceneObject → Option (Vec3 × Vec3))
    (l1 l2 : List SceneObject) (g o : SceneObject) (pr : Vec3 × Vec3)
    (hgo : o.id = g.id) (hpr : target g = some pr)
    (h1 : ∀ a ∈ l1, a.id ≠ o.id) (h2 : ∀ a ∈ l2, a.id ≠ g.id) :
    (l1 ++ g :: l2).foldl (fun o item => applyTargetStep target item o) o =
      { o with position := pr.1, rotation := pr.2 } := by
  rw [List.foldl_append, foldl_applyTargetStep_skip target l1 o h1, List.foldl_cons]
  have hstep : applyTargetStep target g o = { o with position := pr.1, rotation := pr.2 } := by
    simp [applyTargetStep, hpr, hgo]
  rw [hstep]
  exact foldl_applyTargetStep_skip target l2 _ (fun a ha he => h2 a ha (he.trans hgo))

theorem findById_of_split (l1 l2 : List SceneObject) (g : SceneObject)
    (h1 : ∀ a ∈ l1, a.id ≠ g.id) :
    findById (l1 ++ g :: l2) g.id = some g := by
  induction l1 with
  | nil => simp [findById, List.find?_cons]
  | cons a l ih =>
      have ha : (a.id == g.id) = false :=
        beq_eq_false_iff_ne.mpr (h1 a (List.mem_cons_self a l))
      simp only [List.cons_append, findById, List.find?_cons, ha]
      exact ih (fun b hb => h1 b (List.mem_cons_of_mem a hb))

/-- Splits a member out of a list with pairwise-distinct ids, returning the
two sides and the distinctness facts the fold lemmas need. -/
theorem split_of_mem_unique (objects : List SceneObject) (g : SceneObject)
    (hids : objects.Pairwise (fun a b => a.id ≠ b.id)) (hg : g ∈ objects) :
    ∃ l1 l2, objects = l1 ++ g :: l2 ∧
      (∀ a ∈ l1, a.id ≠ g.id) ∧ (∀ b ∈ l2, b.id ≠ g.id) := by
  obtain ⟨l1, l2, rfl⟩ := List.append_of_mem hg
  rw [List.pairwise_append] at hids
  obtain ⟨-, hgt, hcross⟩ := hids
  rw [List.pairwise_cons] at hgt
  refine ⟨l1, l2, rfl, ?_, ?_⟩
  · exact fun a ha => hcross a ha g (List.mem_cons_self g l2)
  · exact fun b hb => (hgt.1 b hb).symm

theorem calculateEndEffectorPosition_eq (robot : SceneObject) :
    calculateEndEffectorPosition robot =
      vecAdd robot.position (robot.properties.endEffectorOffset.getD ⟨0, 0.75, 0⟩) := rfl

/-- C5: in a scene with unique ids, one `GripperSystem` pass moves every
gripper whose `parentRobotId` resolves to a robot to that robot's
end-effector position — robot position plus `endEffectorOffset`, defaulting
to `(0, 0.75, 0)` — and gives it the robot's rotation. -/
theorem gripperFrame_spec (objects : List SceneObject) (g robot : SceneObject)
    (rid : String)
    (hids : objects.Pairwise (fun a b => a.id ≠ b.id))
    (hg : g ∈ objects) (hty : g.type = "gripper")
    (hpid : g.properties.parentRobotId = some rid) (hrid : rid ≠ "")
    (hrobot : (filterRobots objects).find? (fun r => r.id == rid) = some robot) :
    findById (gripperFrame objects) g.id =
      some { g with
             position := vecAdd robot.position
               (robot.properties.endEffectorOffset.getD ⟨0, 0.75, 0⟩),
             rotation := robot.rotation } := by
  have htarget : gripperTarget objects g =
      some (calculateEndEffectorPosition robot, robot.rotation) := by
    simp only [gripperTarget, hpid]
    rw [if_neg (by simp [hrid]), hrobot]
  have hmemg : g ∈ filterGrippers objects := by
    unfold filterGrippers filterObjectsByType
    exact List.mem_filter.mpr ⟨hg, by simp [hty]⟩
  have hpairg : (filterGrippers objects).Pairwise (fun a b => a.id ≠ b.id) :=
    List.Pairwise.sublist (List.filter_sublist _) hids
  obtain ⟨i1, i2, hisplit, hi1, hi2⟩ := split_of_mem_unique _ g hpairg hmemg
  obtain ⟨o1, o2, hosplit, ho1, _⟩ := split_of_mem_unique objects g hids hg
  have hfind : findById objects g.id = some g := by
    rw [hosplit]
    exact findById_of_split o1 o2 g ho1
  unfold gripperFrame
  rw [findById_runSystem, hfind, Option.map_some', hisplit,
    foldl_applyTargetStep_hit (gripperTarget objects) i1 i2 g g _ rfl htarget hi1 hi2,
    calculateEndEffectorPosition_eq]

/-- C4 (amended): in a scene with unique ids, one `CameraSystem` pass gives
every eye-in-hand camera whose `parentRobotId` resolves to a robot that
robot's rotation, and the position `cameraEndEffector` describes: the
attached gripper's current snapshot position when the robot's `gripperId`
resolves, robot position plus end-effector offset with default `(0,0,0)`
when `gripperId` is dangling, and robot position plus offset with default
`(0, 0.75, 0)` only when `gripperId` is absent. -/
theorem cameraFrame_spec (objects : List SceneObject) (cam robot : SceneObject)
    (rid : String)
    (hids : objects.Pairwise (fun a b => a.id ≠ b.id))
    (hcam : cam ∈ objects) (hty : cam.type = "camera")
    (heih : cam.cameraType = some "eye-in-hand")
    (hpid : cam.properties.parentRobotId = some rid) (hrid : rid ≠ "")
    (hrobot : objects.find? (fun obj => obj.type == "robot" && obj.id == rid) = some robot) :
    findById (cameraFrame objects) cam.id =
      some { cam with
             position := cameraEndEffector objects robot,
             rotation := robot.rotation } := by
  have htarget : cameraTarget objects cam =
      some (cameraEndEffector objects robot, robot.rotation) := by
    simp only [cameraTarget, heih, beq_self_eq_true, if_true, hpid]
    rw [if_neg (by simp [hrid]), hrobot]
    rfl
  have hmemc : cam ∈ filterCameras objects := by
    unfold filterCameras filterObjectsByType
    exact List.mem_filter.mpr ⟨hcam, by simp [hty]⟩
  have hpairc : (filterCameras objects).Pairwise (fun a b => a.id ≠ b.id) :=
    List.Pairwise.sublist (List.filter_sublist _) hids
  obtain ⟨i1, i2, hisplit, hi1, hi2⟩ := split_of_mem_unique _ cam hpairc hmemc
  obtain ⟨o1, o2, hosplit, ho1, _⟩ := split_of_mem_unique objects cam hids hcam
  have hfind : findById objects cam.id = some cam := by
    rw [hosplit]
    exact findById_of_split o1 o2 cam ho1
  unfold cameraFrame
  rw [findById_runSystem, hfind, Option.map_some', hisplit,
    foldl_applyTargetStep_hit (cameraTarget objects) i1 i2 cam cam _ rfl htarget hi1 hi2]

/-! Concrete attachment scenes. -/

/-- C4 counterexample: with the gripper parked at `(5,5,5)`, one
`CameraSystem` pass puts the eye-in-hand camera at the gripper's snapshot
position `(5,5,5)`, not at the claimed end-effector position
`robot.position + (0, 0.75, 0) = (0, 0.75, 0)`. -/
theorem cameraFrame_claim_counterexample :
    (findById (cameraFrame exC4Scene) "c1").map SceneObject.position = some ⟨5, 5, 5⟩ ∧
    vecAdd exC4Robot.position
        (exC4Robot.properties.endEffectorOffset.getD ⟨0, 0.75, 0⟩) = ⟨0, 0.75, 0⟩ ∧
    ((⟨5, 5, 5⟩ : Vec3) ≠ ⟨0, 0.75, 0⟩) := by
  refine ⟨by decide, by simp [exC4Robot, vecAdd], by norm_num [Vec3.mk.injEq]⟩

/-- Witness for C5: the spec's end-to-end example — offset `(0,1,0)`, robot at
the origin — lands the gripper at `(0,1,0)` with the robot's rotation. -/
theorem gripperFrame_spec_witness :
    findById (gripperFrame exC5Scene) exC5Grip.id =
      some { exC5Grip with
             position := vecAdd exC5Robot.position
               (exC5Robot.properties.endEffectorOffset.getD ⟨0, 0.75, 0⟩),
             rotation := exC5Robot.rotation } ∧
    vecAdd exC5Robot.position
        (exC5Robot.properties.endEffectorOffset.getD ⟨0, 0.75, 0⟩) = ⟨0, 1, 0⟩ :=
  ⟨gripperFrame_spec exC5Scene exC5Grip exC5Robot "r1" (by decide) (by decide) rfl rfl
      (by decide) (by decide), by simp [exC5Robot, vecAdd]⟩

/-- Witness for C4 (amended): on the counterexample scene the hypotheses hold
and the pass realizes the amended description. -/
theorem cameraFrame_spec_witness :
    findById (cameraFrame exC4Scene) exC4Cam.id =
      some { exC4Cam with
             position := cameraEndEffector exC4Scene exC4Robot,
             rotation := exC4Robot.rotation } :=
  cameraFrame_spec exC4Scene exC4Cam exC4Robot "r1" (by decide) (by decide) rfl rfl rfl
    (by decide) (by decide)

/-- C10: `stopSimulation` replaces the whole simulation record with
`{idle, 0, null, 1}` regardless of the prior state (so a chosen speed, e.g.
3x, does not survive a stop), and `startSimulation` resets progress to 0 and
speed to 1 while entering the playing state with the chosen path. -/
theorem stop_start_reset (sim : SimulationData) (pathId : String) :
    applySimAction sim .stop = ⟨.idle, 0, none, 1⟩ ∧
    applySimAction sim (.start pathId) = ⟨.playing, 0, some pathId, 1⟩ ∧
    (applySimAction { sim with speed := 3 } .stop).speed = 1 :=
  ⟨rfl, rfl, rfl⟩

end VisionLab
